import Mathlib

/-!
Shallow embedding of `Src/Core/DeviceBridge.cpp` (the C3 Device Bridge) and
proofs of the specification's claims about it.

Bytes are modelled as `Nat` (each `< 256` on real data), buffers as `List Nat`.
The `uint32_t` header fields are modelled as `Nat` reduced mod `2^32` at the
point where the source serialises them into bytes.
-/

namespace DeviceBridge

/-- Little-endian serialisation of a `uint32_t` into four bytes, as
`ByteVector::Write` does via `memcpy` of the 4-byte value. -/
def encodeU32 (n : Nat) : List Nat :=
  [n % 256, n / 256 % 256, n / 65536 % 256, n / 16777216 % 256]

/-- Little-endian deserialisation of four bytes into a `uint32_t`. -/
def decodeU32 (bs : List Nat) : Nat :=
  match bs with
  | [a, b, c, d] => a + 256 * b + 65536 * c + 16777216 * d
  | _ => 0

/-- `QualityOfService::s_HeaderSize`: the chunk header is three `u32` fields,
12 bytes (spec section 4.1). -/
def s_HeaderSize : Nat := 12

/-- The frame built at line 78 of `DeviceBridge.cpp`:
`ByteVector{}.Write(messageId, chunkId, oryginalSize).Concat(packet)`. -/
def mkFrame (messageId chunkId oryginalSize : Nat) (packet : List Nat) : List Nat :=
  encodeU32 messageId ++ encodeU32 chunkId ++ encodeU32 oryginalSize ++ packet

/-- One transport call made by the send loop of `OnPassNetworkPacket`:
the frame offered to `OnSendToChannelInternal`, the byte count the
transport reported, and whether the progress condition at line 81 held. -/
structure SendEvent where
  frame : List Nat
  sent : Nat
  accepted : Bool
deriving Repr, DecidableEq

/-- One iteration of the send loop (lines 78-85 of `DeviceBridge.cpp`):
build the frame, call the transport, and advance `(chunkId, packet)` iff the
condition at line 81 (`sent >= s_MinFrameSize || sent == data.size()`) holds,
in which case `sent - s_HeaderSize` payload bytes are consumed (line 84). -/
def sendStep (minFrameSize messageId oryginalSize : Nat) (send : Nat → List Nat → Nat)
    (callIdx chunkId : Nat) (packet : List Nat) : SendEvent × (Nat × List Nat) :=
  let data := mkFrame messageId chunkId oryginalSize packet
  let sent := send callIdx data
  let ok : Bool := decide (sent ≥ minFrameSize ∨ sent = data.length)
  (⟨data, sent, ok⟩,
   (if ok then chunkId + 1 else chunkId,
    if ok then packet.drop (sent - s_HeaderSize) else packet))

/-- The send loop of `OnPassNetworkPacket` (lines 76-86 of `DeviceBridge.cpp`),
fuelled so that a stalling transport yields a finite trace. `send` maps the
call index and the offered frame to the byte count the transport reports.
Returns the trace of transport calls and the final `(chunkId, packet)` state. -/
def sendLoop (minFrameSize messageId oryginalSize : Nat) (send : Nat → List Nat → Nat) :
    Nat → Nat → Nat → List Nat → List SendEvent × (Nat × List Nat)
  | 0, _, chunkId, packet => ([], (chunkId, packet))
  | fuel + 1, callIdx, chunkId, packet =>
    if packet.isEmpty then ([], (chunkId, packet))
    else
      let s := sendStep minFrameSize messageId oryginalSize send callIdx chunkId packet
      let rest := sendLoop minFrameSize messageId oryginalSize send fuel (callIdx + 1) s.2.1 s.2.2
      (s.1 :: rest.1, rest.2)

/-- Modelled from the spec: `QualityOfService`'s outbound message-id counter
(`GetOutgouingPacketId`, spec: "allocate `message_id := qos.next_outgoing_id`",
"unique, monotonically increasing"); the QoS implementation is not part of the
sources under verification. Returns the allocated id and the advanced state. -/
structure QoSOutState where
  outgoingId : Nat
deriving Repr, DecidableEq

/-- Modelled from the spec: allocating the next outgoing message id consumes it. -/
def getOutgouingPacketId (q : QoSOutState) : Nat × QoSOutState :=
  (q.outgoingId, ⟨q.outgoingId + 1⟩)

/-- The error thrown at line 68 of `DeviceBridge.cpp` when a negotiation
channel fails to send a whole packet in one call. -/
structure NegotiationViolation where
  packetSize : Nat
  channelSent : Nat
deriving Repr, DecidableEq

/-- The `std::runtime_error` message built at line 68. -/
def negotiationMessage (e : NegotiationViolation) : String :=
  "Negotiation channel does not support chunking. Packet size: " ++
    toString e.packetSize ++ " Channel sent: " ++ toString e.channelSent

/-- The negotiation branch of `OnPassNetworkPacket` (lines 64-71): one raw
transport call; a mismatching byte count throws. Returns the list of buffers
passed to `OnSendToChannelInternal` and the violation, if any. -/
def onPassNetworkPacketNeg (send : List Nat → Nat) (packet : List Nat) :
    List (List Nat) × Option NegotiationViolation :=
  let sent := send packet
  if sent ≠ packet.length then ([packet], some ⟨packet.length, sent⟩)
  else ([packet], none)

/-- The non-negotiation branch of `OnPassNetworkPacket` (lines 73-86): the
message id is allocated from QoS once, then the fuelled send loop runs with
`chunkId = 0` and `oryginalSize = packet.length`. Returns the trace, the final
loop state and the QoS state after the id allocation. -/
def onPassNetworkPacketChunked (minFrameSize : Nat) (q : QoSOutState)
    (send : Nat → List Nat → Nat) (fuel : Nat) (packet : List Nat) :
    (List SendEvent × (Nat × List Nat)) × QoSOutState :=
  let alloc := getOutgouingPacketId q
  (sendLoop minFrameSize alloc.1 packet.length send fuel 0 0 packet, alloc.2)

/-- The payload slice a transport call actually moved: the transmitted bytes
(`frame.take sent`) minus the 12-byte header. -/
def eventPayload (e : SendEvent) : List Nat :=
  (e.frame.take e.sent).drop s_HeaderSize

/-- Concatenation, in emission order, of the payload slices of the accepted
chunks of a trace. -/
def acceptedPayloads (evs : List SendEvent) : List Nat :=
  (evs.filter (·.accepted)).map eventPayload |>.flatten

/-- The number of accepted chunks in a trace. -/
def countAccepted (evs : List SendEvent) : Nat :=
  (evs.filter (·.accepted)).length

/-- `PassNetworkPacket` (lines 48-57 of `DeviceBridge.cpp`), generic over the
QoS reassembly engine (which lives outside the verified sources):
`pushReceivedChunk` and `getNextPacket` are its two operations on an abstract
state `Q`. Returns the QoS state after the call and the list of packets handed
to `Relay::OnPacketReceived`. -/
def passNetworkPacket {Q : Type} (isNegotiationChannel isSlave : Bool)
    (pushReceivedChunk : Q → List Nat → Q) (getNextPacket : Q → Q × List Nat)
    (q : Q) (packet : List Nat) : Q × List (List Nat) :=
  if isNegotiationChannel && !isSlave then (q, [packet])
  else
    let q1 := pushReceivedChunk q packet
    let r := getNextPacket q1
    if (r.2).isEmpty then (r.1, []) else (r.1, [r.2])

/-- Log severities (the bridge only emits `Error` from the worker). -/
inductive Severity
  | Error
  | Information
deriving Repr, DecidableEq

/-- Outcome of one `OnReceive` attempt inside the worker loop: success, a
`std::exception` with a message, or an unknown exception. -/
inductive RecvOutcome
  | ok
  | exnKnown (msg : String)
  | exnUnknown
deriving Repr, DecidableEq

/-- Observable actions of the worker loop body. -/
inductive WorkerEvent
  | sleep
  | onReceiveCall
  | log (severity : Severity) (msg : String)
deriving Repr, DecidableEq

/-- The events of one iteration of the worker body (lines 136-148 of
`DeviceBridge.cpp`): sleep for the update delay, call `OnReceive`, and on an
exception log it at `Error` severity with the message the source builds. -/
def iterationEvents (o : RecvOutcome) : List WorkerEvent :=
  match o with
  | .ok => [.sleep, .onReceiveCall]
  | .exnKnown m =>
      [.sleep, .onReceiveCall, .log .Error ("std::exception while updating: " ++ m)]
  | .exnUnknown =>
      [.sleep, .onReceiveCall, .log .Error "Unknown exception while updating."]

/-- The worker loop of `StartUpdatingInSeparateThread` (lines 135-148):
`while (m_IsAlive) { sleep; try OnReceive; catch { log Error } }`. `alive i`
is the value of the atomic `m_IsAlive` read at the top of iteration `i`
(`Detach` flips it from another thread), `outcome i` the result of iteration
`i`'s body. Fuelled; returns the event trace. -/
def workerLoop (alive : Nat → Bool) (outcome : Nat → RecvOutcome) :
    Nat → Nat → List WorkerEvent
  | 0, _ => []
  | fuel + 1, i =>
    if alive i then iterationEvents (outcome i) ++ workerLoop alive outcome fuel (i + 1)
    else []

/-- Modelled from the spec: the length-prefix codec of
`ByteView::Read<ByteVector>` (spec section 6: "two length-prefixed
byte-vectors ... decoded by the standard length-prefix codec"); the
ByteView/ByteVector implementation is not part of the verified sources.
A `u32` length, then that many bytes; `none` models the decode throw on a
malformed buffer. -/
def readByteVector (bs : List Nat) : Option (List Nat × List Nat) :=
  if 4 ≤ bs.length then
    let n := decodeU32 (bs.take 4)
    if n ≤ bs.length - 4 then some (((bs.drop 4).take n, (bs.drop 4).drop n))
    else none
  else none

/-- Modelled from the spec: the matching length-prefix encoder of
`ByteVector::Write<ByteVector>`. -/
def writeByteVector (v : List Nat) : List Nat :=
  encodeU32 v.length ++ v

/-- The constructor-held argument state of a bridge (lines 6-20 of
`DeviceBridge.cpp`): the construction flags and the three members the
constructor may fill from `args` (`m_InputId`, `m_OutpuId`,
`m_NonNegotiatiedArguments`). -/
structure BridgeState where
  isNegotiationChannelFlag : Bool
  isSlave : Bool
  inputId : List Nat
  outputId : List Nat
  nonNegotiatedArguments : List Nat
deriving Repr, DecidableEq

/-- The constructor of `DeviceBridge` (lines 6-20): a non-negotiation bridge
returns before parsing, leaving the three byte members empty; a negotiation
bridge reads two length-prefixed byte-vectors from `args` and keeps the rest,
`none` modelling the decode exception escaping the constructor. -/
def constructDeviceBridge (isNegotiationChannel isSlave : Bool) (args : List Nat) :
    Option BridgeState :=
  if !isNegotiationChannel then some ⟨false, isSlave, [], [], []⟩
  else
    match readByteVector args with
    | none => none
    | some (inId, rest) =>
      match readByteVector rest with
      | none => none
      | some (outId, rest2) => some ⟨true, isSlave, inId, outId, rest2⟩

/-- A Device collaborator, reduced to what the accessor claims consult. -/
structure Device where
  isChannel : Bool
deriving Repr, DecidableEq

/-- `DeviceBridge::IsChannel` (lines 189-194): `device ? device->IsChannel() : false`. -/
def IsChannel (device : Option Device) : Bool :=
  match device with
  | some d => d.isChannel
  | none => false

/-- `DeviceBridge::IsNegotiationChannel` (lines 197-200):
`m_IsNegotiationChannel && IsChannel()`. -/
def IsNegotiationChannel (flag : Bool) (device : Option Device) : Bool :=
  flag && IsChannel device

theorem encodeU32_length (n : Nat) : (encodeU32 n).length = 4 := rfl

theorem decodeU32_encodeU32 (n : Nat) : decodeU32 (encodeU32 n) = n % 4294967296 := by
  simp only [encodeU32, decodeU32]
  omega

theorem mkFrame_eq (mid cid osz : Nat) (packet : List Nat) :
    mkFrame mid cid osz packet =
      (encodeU32 mid ++ encodeU32 cid ++ encodeU32 osz) ++ packet := by
  simp [mkFrame]

theorem header_length (mid cid osz : Nat) :
    (encodeU32 mid ++ encodeU32 cid ++ encodeU32 osz).length = 12 := by
  simp [encodeU32]

theorem mkFrame_length (mid cid osz : Nat) (packet : List Nat) :
    (mkFrame mid cid osz packet).length = 12 + packet.length := by
  simp [mkFrame, encodeU32]
  omega

theorem take_append_drop_header (hdr packet : List Nat) (h : hdr.length = 12) (sent : Nat) :
    ((hdr ++ packet).take sent).drop 12 = packet.take (sent - 12) := by
  rcases le_or_lt sent 12 with hle | hlt
  · have h1 : (hdr ++ packet).take sent = hdr.take sent :=
      List.take_append_of_le_length (by omega)
    have h2 : (hdr.take sent).length ≤ 12 := by
      simp [List.length_take]
      omega
    rw [h1, List.drop_eq_nil_of_le h2, Nat.sub_eq_zero_of_le hle, List.take_zero]
  · rw [List.take_append_eq_append_take, List.take_of_length_le (by omega), ← h]
    exact List.drop_left hdr (packet.take (sent - hdr.length))

theorem eventPayload_sendStep (mfs mid osz : Nat) (send : Nat → List Nat → Nat)
    (ci cid : Nat) (packet : List Nat) :
    eventPayload (sendStep mfs mid osz send ci cid packet).1 =
      packet.take ((sendStep mfs mid osz send ci cid packet).1.sent - 12) := by
  show ((mkFrame mid cid osz packet).take _).drop 12 = _
  rw [mkFrame_eq]
  exact take_append_drop_header _ _ (header_length mid cid osz) _

theorem sendStep_frame (mfs mid osz : Nat) (send : Nat → List Nat → Nat)
    (ci cid : Nat) (packet : List Nat) :
    (sendStep mfs mid osz send ci cid packet).1.frame = mkFrame mid cid osz packet := rfl

theorem sendStep_sent (mfs mid osz : Nat) (send : Nat → List Nat → Nat)
    (ci cid : Nat) (packet : List Nat) :
    (sendStep mfs mid osz send ci cid packet).1.sent =
      send ci (mkFrame mid cid osz packet) := rfl

theorem sendStep_accepted_iff (mfs mid osz : Nat) (send : Nat → List Nat → Nat)
    (ci cid : Nat) (packet : List Nat) :
    (sendStep mfs mid osz send ci cid packet).1.accepted = true ↔
      (send ci (mkFrame mid cid osz packet) ≥ mfs ∨
       send ci (mkFrame mid cid osz packet) = (mkFrame mid cid osz packet).length) := by
  simp [sendStep]

theorem sendStep_snd_fst_of_accepted (mfs mid osz : Nat) (send : Nat → List Nat → Nat)
    (ci cid : Nat) (packet : List Nat)
    (h : (sendStep mfs mid osz send ci cid packet).1.accepted = true) :
    (sendStep mfs mid osz send ci cid packet).2.1 = cid + 1 := by
  simp only [sendStep] at h ⊢
  rw [if_pos h]

theorem sendStep_snd_snd_of_accepted (mfs mid osz : Nat) (send : Nat → List Nat → Nat)
    (ci cid : Nat) (packet : List Nat)
    (h : (sendStep mfs mid osz send ci cid packet).1.accepted = true) :
    (sendStep mfs mid osz send ci cid packet).2.2 =
      packet.drop ((sendStep mfs mid osz send ci cid packet).1.sent - 12) := by
  simp only [sendStep] at h ⊢
  rw [if_pos h]
  rfl

theorem sendStep_snd_of_not_accepted (mfs mid osz : Nat) (send : Nat → List Nat → Nat)
    (ci cid : Nat) (packet : List Nat)
    (h : (sendStep mfs mid osz send ci cid packet).1.accepted = false) :
    (sendStep mfs mid osz send ci cid packet).2 = (cid, packet) := by
  simp only [sendStep] at h ⊢
  rw [if_neg (by simp [h]), if_neg (by simp [h])]

theorem sendLoop_zero (mfs mid osz : Nat) (send : Nat → List Nat → Nat)
    (ci cid : Nat) (packet : List Nat) :
    sendLoop mfs mid osz send 0 ci cid packet = ([], (cid, packet)) := rfl

theorem sendLoop_succ_nil (mfs mid osz : Nat) (send : Nat → List Nat → Nat)
    (fuel ci cid : Nat) :
    sendLoop mfs mid osz send (fuel + 1) ci cid [] = ([], (cid, [])) := rfl

theorem sendLoop_succ_cons (mfs mid osz : Nat) (send : Nat → List Nat → Nat)
    (fuel ci cid : Nat) (a : Nat) (l : List Nat) :
    sendLoop mfs mid osz send (fuel + 1) ci cid (a :: l) =
      ((sendStep mfs mid osz send ci cid (a :: l)).1 ::
        (sendLoop mfs mid osz send fuel (ci + 1)
          (sendStep mfs mid osz send ci cid (a :: l)).2.1
          (sendStep mfs mid osz send ci cid (a :: l)).2.2).1,
       (sendLoop mfs mid osz send fuel (ci + 1)
          (sendStep mfs mid osz send ci cid (a :: l)).2.1
          (sendStep mfs mid osz send ci cid (a :: l)).2.2).2) := rfl

theorem acceptedPayloads_nil : acceptedPayloads [] = [] := rfl

theorem acceptedPayloads_cons (e : SendEvent) (evs : List SendEvent) :
    acceptedPayloads (e :: evs) =
      (if e.accepted then eventPayload e else []) ++ acceptedPayloads evs := by
  cases h : e.accepted <;> simp [acceptedPayloads, List.filter_cons, h]

theorem countAccepted_cons (e : SendEvent) (evs : List SendEvent) :
    countAccepted (e :: evs) =
      (if e.accepted then 1 else 0) + countAccepted evs := by
  cases h : e.accepted with
  | false => simp [countAccepted, List.filter_cons, h]
  | true =>
    simp [countAccepted, List.filter_cons, h]
    omega

/-- Invariant of the send loop: the accepted payload slices emitted so far,
followed by the bytes still pending, always reconstitute the packet the loop
was started with. -/
theorem sendLoop_payload_invariant (mfs mid osz : Nat) (send : Nat → List Nat → Nat) :
    ∀ fuel ci cid packet,
      acceptedPayloads (sendLoop mfs mid osz send fuel ci cid packet).1 ++
        (sendLoop mfs mid osz send fuel ci cid packet).2.2 = packet := by
  intro fuel
  induction fuel with
  | zero =>
    intro ci cid packet
    simp [sendLoop_zero, acceptedPayloads_nil]
  | succ n ih =>
    intro ci cid packet
    cases packet with
    | nil => simp [sendLoop_succ_nil, acceptedPayloads_nil]
    | cons a l =>
      rw [sendLoop_succ_cons]
      simp only [acceptedPayloads_cons]
      by_cases hok : (sendStep mfs mid osz send ci cid (a :: l)).1.accepted = true
      · rw [if_pos hok, eventPayload_sendStep,
          sendStep_snd_snd_of_accepted mfs mid osz send ci cid (a :: l) hok,
          List.append_assoc, ih]
        exact List.take_append_drop _ _
      · have h2 := sendStep_snd_of_not_accepted mfs mid osz send ci cid (a :: l)
          (Bool.eq_false_iff.mpr hok)
        have h21 : (sendStep mfs mid osz send ci cid (a :: l)).2.1 = cid := by rw [h2]
        have h22 : (sendStep mfs mid osz send ci cid (a :: l)).2.2 = a :: l := by rw [h2]
        rw [if_neg hok, h21, h22]
        simp only [List.nil_append]
        exact ih (ci + 1) cid (a :: l)

/-- Under a transport that always accepts at least `minFrameSize` bytes or the
whole frame, the loop drains the packet within `packet.length` iterations. -/
theorem sendLoop_terminates (mfs mid osz : Nat) (send : Nat → List Nat → Nat)
    (h12 : 12 < mfs)
    (hsend : ∀ i f, (mfs ≤ send i f ∧ send i f ≤ f.length) ∨ send i f = f.length) :
    ∀ fuel ci cid packet, packet.length ≤ fuel →
      (sendLoop mfs mid osz send fuel ci cid packet).2.2 = [] := by
  intro fuel
  induction fuel with
  | zero =>
    intro ci cid packet hlen
    have hnil : packet = [] := List.eq_nil_of_length_eq_zero (Nat.le_zero.mp hlen)
    subst hnil
    simp [sendLoop_zero]
  | succ n ih =>
    intro ci cid packet hlen
    cases packet with
    | nil => simp [sendLoop_succ_nil]
    | cons a l =>
      rw [sendLoop_succ_cons]
      have hflen : (mkFrame mid cid osz (a :: l)).length = 12 + (a :: l).length :=
        mkFrame_length mid cid osz (a :: l)
      have hsent := hsend ci (mkFrame mid cid osz (a :: l))
      have hacc : (sendStep mfs mid osz send ci cid (a :: l)).1.accepted = true := by
        rw [sendStep_accepted_iff]
        rcases hsent with ⟨hge, _⟩ | heq
        · exact Or.inl hge
        · exact Or.inr heq
      rw [sendStep_snd_snd_of_accepted mfs mid osz send ci cid (a :: l) hacc]
      apply ih
      rw [sendStep_sent, List.length_drop]
      rcases hsent with ⟨hge, _⟩ | heq
      · simp only [List.length_cons] at hlen ⊢
        omega
      · rw [heq, hflen]
        simp only [List.length_cons] at hlen ⊢
        omega

/-- C1. Chunking round-trip: on a non-negotiation channel, a non-empty packet
sent through `OnPassNetworkPacket` against a transport that always accepts at
least `s_MinFrameSize` bytes (and at most the frame) or exactly the offered
frame is fully drained, and the payload slices of the accepted chunks, in
emission (= chunk id) order, concatenate back to the packet bit-identically. -/
theorem chunking_round_trip (mfs fuel : Nat) (q : QoSOutState)
    (send : Nat → List Nat → Nat) (packet : List Nat)
    (h12 : 12 < mfs) (_hne : packet ≠ [])
    (hsend : ∀ i f, (mfs ≤ send i f ∧ send i f ≤ f.length) ∨ send i f = f.length)
    (hfuel : packet.length ≤ fuel) :
    (onPassNetworkPacketChunked mfs q send fuel packet).1.2.2 = [] ∧
    acceptedPayloads (onPassNetworkPacketChunked mfs q send fuel packet).1.1 = packet := by
  have hterm : (sendLoop mfs q.outgoingId packet.length send fuel 0 0 packet).2.2 = [] :=
    sendLoop_terminates mfs q.outgoingId packet.length send h12 hsend fuel 0 0 packet hfuel
  have hinv := sendLoop_payload_invariant mfs q.outgoingId packet.length send fuel 0 0 packet
  rw [hterm, List.append_nil] at hinv
  exact ⟨hterm, hinv⟩

/-- Closed instance of `chunking_round_trip` at a concrete packet and
transport. -/
theorem chunking_round_trip_witness :
    (onPassNetworkPacketChunked 20 ⟨0⟩ (fun _ f => f.length) 3 [1, 2, 3]).1.2.2 = [] ∧
    acceptedPayloads
      (onPassNetworkPacketChunked 20 ⟨0⟩ (fun _ f => f.length) 3 [1, 2, 3]).1.1 = [1, 2, 3] :=
  chunking_round_trip 20 3 ⟨0⟩ (fun _ f => f.length) [1, 2, 3] (by decide) (by decide)
    (fun _ _ => Or.inr rfl) (by decide)

/-- C2. Negotiation one-shot: on a negotiation channel the packet is handed to
the transport raw, in exactly one call; a byte count other than the packet
size raises the violation carrying the expected and actual counts (and the
thrown message spells both out); a matching count raises nothing. -/
theorem negotiation_one_shot (send : List Nat → Nat) (packet : List Nat) :
    (onPassNetworkPacketNeg send packet).1 = [packet] ∧
    (send packet ≠ packet.length →
      (onPassNetworkPacketNeg send packet).2 = some ⟨packet.length, send packet⟩ ∧
      negotiationMessage ⟨packet.length, send packet⟩ =
        "Negotiation channel does not support chunking. Packet size: " ++
          toString packet.length ++ " Channel sent: " ++ toString (send packet)) ∧
    (send packet = packet.length → (onPassNetworkPacketNeg send packet).2 = none) := by
  refine ⟨?_, fun h => ⟨?_, rfl⟩, fun h => ?_⟩
  · by_cases h : send packet = packet.length <;> simp [onPassNetworkPacketNeg, h]
  · simp [onPassNetworkPacketNeg, h]
  · simp [onPassNetworkPacketNeg, h]

/-- Closed instance of `negotiation_one_shot`: a 2-byte packet met by a
transport reporting 5 bytes sent. -/
theorem negotiation_one_shot_witness :
    (onPassNetworkPacketNeg (fun _ => 5) [1, 2]).1 = [[1, 2]] ∧
    (onPassNetworkPacketNeg (fun _ => 5) [1, 2]).2 = some ⟨2, 5⟩ :=
  ⟨(negotiation_one_shot (fun _ => 5) [1, 2]).1,
   ((negotiation_one_shot (fun _ => 5) [1, 2]).2.1 (by decide)).1⟩

/-- C5. Receive routing: a frame arriving at `PassNetworkPacket` on a
negotiation channel whose bridge is not a slave is forwarded raw to the relay
with the QoS state untouched; on any other bridge it is pushed into QoS and
the relay is invoked exactly when `GetNextPacket` yields a non-empty
reassembled packet, with that packet. -/
theorem receive_routing {Q : Type} (isSlave : Bool)
    (push : Q → List Nat → Q) (getNext : Q → Q × List Nat) (q : Q) (packet : List Nat) :
    passNetworkPacket true false push getNext q packet = (q, [packet]) ∧
    (∀ isNeg : Bool, (isNeg = false ∨ isSlave = true) →
      passNetworkPacket isNeg isSlave push getNext q packet =
        ((getNext (push q packet)).1,
         if (getNext (push q packet)).2.isEmpty then []
         else [(getNext (push q packet)).2])) := by
  constructor
  · rfl
  · intro isNeg h
    rcases h with h | h <;> subst h <;> simp [passNetworkPacket] <;>
      rcases hne : (getNext (push q packet)).2 with _ | _ <;> simp [hne]

/-- Closed instance of `receive_routing` on a concrete QoS stub. -/
theorem receive_routing_witness :
    passNetworkPacket true false (fun (n : Nat) _ => n + 1) (fun n => (n, [7])) 0 [5] =
      (0, [[5]]) ∧
    passNetworkPacket false true (fun (n : Nat) _ => n + 1) (fun n => (n, [7])) 0 [5] =
      (1, [[7]]) :=
  ⟨(receive_routing false (fun n _ => n + 1) (fun n => (n, [7])) 0 [5]).1,
   by simpa using
     (receive_routing true (fun (n : Nat) _ => n + 1) (fun n => (n, [7])) 0 [5]).2 false
       (Or.inl rfl)⟩

/-- C7. Worker loop behaviour: while `m_IsAlive` reads true, each iteration is
a sleep followed by an `OnReceive` call, any exception being logged at `Error`
severity with the source's message before the loop proceeds to the next
iteration; as soon as `m_IsAlive` reads false the loop exits with no further
`OnReceive` calls. -/
theorem worker_loop_behaviour (alive : Nat → Bool) (outcome : Nat → RecvOutcome) :
    (∀ fuel i, alive i = false → workerLoop alive outcome fuel i = []) ∧
    (∀ fuel i, alive i = true →
      workerLoop alive outcome (fuel + 1) i =
        iterationEvents (outcome i) ++ workerLoop alive outcome fuel (i + 1)) ∧
    (∀ m, iterationEvents (RecvOutcome.exnKnown m) =
      [WorkerEvent.sleep, WorkerEvent.onReceiveCall,
       WorkerEvent.log Severity.Error ("std::exception while updating: " ++ m)]) ∧
    iterationEvents RecvOutcome.exnUnknown =
      [WorkerEvent.sleep, WorkerEvent.onReceiveCall,
       WorkerEvent.log Severity.Error "Unknown exception while updating."] ∧
    (∀ fuel i, alive i = false →
      WorkerEvent.onReceiveCall ∉ workerLoop alive outcome fuel i) := by
  refine ⟨fun fuel i h => ?_, fun fuel i h => ?_, fun m => rfl, rfl, fun fuel i h => ?_⟩
  · cases fuel with
    | zero => rfl
    | succ n => simp [workerLoop, h]
  · simp [workerLoop, h]
  · cases fuel with
    | zero => simp [workerLoop]
    | succ n => simp [workerLoop, h]

/-- Closed instance of `worker_loop_behaviour`: the worker survives a throwing
`OnReceive`, logs it at `Error`, and exits once `m_IsAlive` is false. -/
theorem worker_loop_behaviour_witness :
    workerLoop (fun i => decide (i < 1)) (fun _ => RecvOutcome.exnKnown "boom") 2 0 =
      [WorkerEvent.sleep, WorkerEvent.onReceiveCall,
       WorkerEvent.log Severity.Error "std::exception while updating: boom"] := by
  have h := worker_loop_behaviour (fun i => decide (i < 1)) (fun _ => RecvOutcome.exnKnown "boom")
  rw [show (2 : Nat) = 1 + 1 from rfl, h.2.1 1 0 (by decide), h.1 1 1 (by decide)]
  simp [iterationEvents]

/-- C9. Empty-packet send: `OnPassNetworkPacket` with an empty packet on a
non-negotiation channel makes no transport call and returns normally, yet the
QoS outgoing message-id counter has still been advanced. -/
theorem empty_packet_send (mfs fuel : Nat) (q : QoSOutState) (send : Nat → List Nat → Nat) :
    onPassNetworkPacketChunked mfs q send fuel [] = (([], (0, [])), ⟨q.outgoingId + 1⟩) := by
  cases fuel <;> rfl

/-- C10. Accessor vs flag: `IsNegotiationChannel()` is the conjunction of the
construction flag and the device's current `IsChannel()`, `IsChannel()` is
false on a null device handle, so the accessor can report false while the
immutable flag is true. -/
theorem accessor_vs_flag :
    (∀ (flag : Bool) (device : Option Device),
        IsNegotiationChannel flag device = true ↔ flag = true ∧ IsChannel device = true) ∧
    IsChannel none = false ∧
    IsNegotiationChannel true none = false := by
  refine ⟨?_, rfl, rfl⟩
  intro flag device
  simp [IsNegotiationChannel]

/-- The length-prefix codec round-trips: reading a written vector recovers it
and leaves the trailing bytes. -/
theorem readByteVector_writeByteVector (v tail : List Nat) (h : v.length < 4294967296) :
    readByteVector (writeByteVector v ++ tail) = some (v, tail) := by
  have hassoc : writeByteVector v ++ tail = encodeU32 v.length ++ (v ++ tail) := by
    simp [writeByteVector, List.append_assoc]
  have h4 : (encodeU32 v.length).length = 4 := rfl
  have htake : (encodeU32 v.length ++ (v ++ tail)).take 4 = encodeU32 v.length := by
    rw [← h4]
    exact List.take_left _ _
  have hdrop : (encodeU32 v.length ++ (v ++ tail)).drop 4 = v ++ tail := by
    rw [← h4]
    exact List.drop_left _ _
  have hlen : (encodeU32 v.length ++ (v ++ tail)).length = 4 + (v.length + tail.length) := by
    simp [encodeU32]
    omega
  simp only [readByteVector, hassoc, htake, hdrop, hlen, decodeU32_encodeU32,
    Nat.mod_eq_of_lt h]
  rw [if_pos (by omega), if_pos (by omega), List.take_left, List.drop_left]

/-- C8. Constructor argument parsing: a non-negotiation bridge leaves the id
and argument members empty without touching `args`; a negotiation bridge
decodes the leading `(input_id, output_id)` length-prefixed pair, stores the
remainder verbatim, and fails construction when either read is malformed. -/
theorem constructor_argument_parsing (isSlave : Bool) (a b rest args : List Nat)
    (ha : a.length < 4294967296) (hb : b.length < 4294967296) :
    constructDeviceBridge false isSlave args = some ⟨false, isSlave, [], [], []⟩ ∧
    constructDeviceBridge true isSlave (writeByteVector a ++ (writeByteVector b ++ rest)) =
      some ⟨true, isSlave, a, b, rest⟩ ∧
    (readByteVector args = none → constructDeviceBridge true isSlave args = none) ∧
    (∀ x r, readByteVector args = some (x, r) → readByteVector r = none →
      constructDeviceBridge true isSlave args = none) := by
  refine ⟨rfl, ?_, fun h => ?_, fun x r h1 h2 => ?_⟩
  · simp [constructDeviceBridge, readByteVector_writeByteVector a (writeByteVector b ++ rest) ha,
      readByteVector_writeByteVector b rest hb]
  · simp [constructDeviceBridge, h]
  · simp [constructDeviceBridge, h1, h2]

/-- Closed instance of `constructor_argument_parsing`: a well-formed and a
too-short argument buffer. -/
theorem constructor_argument_parsing_witness :
    constructDeviceBridge false false [9] = some ⟨false, false, [], [], []⟩ ∧
    constructDeviceBridge true false (writeByteVector [1] ++ (writeByteVector [2, 3] ++ [4])) =
      some ⟨true, false, [1], [2, 3], [4]⟩ ∧
    constructDeviceBridge true false [9] = none :=
  ⟨(constructor_argument_parsing false [1] [2, 3] [4] [9] (by decide) (by decide)).1,
   (constructor_argument_parsing false [1] [2, 3] [4] [9] (by decide) (by decide)).2.1,
   (constructor_argument_parsing false [1] [2, 3] [4] [9] (by decide) (by decide)).2.2.1
     (by decide)⟩

/-- Under a transport that, on every offered frame, reports fewer than
`minFrameSize` bytes and fewer than the frame, the loop re-offers the very
same frame on every call and never advances. -/
theorem sendLoop_stall (mfs mid osz : Nat) (send : Nat → List Nat → Nat)
    (hstall : ∀ i f, 13 ≤ f.length → send i f < mfs ∧ send i f < f.length) :
    ∀ fuel ci cid packet, packet ≠ [] →
      (sendLoop mfs mid osz send fuel ci cid packet).1.length = fuel ∧
      (∀ e ∈ (sendLoop mfs mid osz send fuel ci cid packet).1,
        e.frame = mkFrame mid cid osz packet ∧ e.accepted = false) ∧
      (sendLoop mfs mid osz send fuel ci cid packet).2 = (cid, packet) := by
  intro fuel
  induction fuel with
  | zero =>
    intro ci cid packet hne
    simp [sendLoop_zero]
  | succ n ih =>
    intro ci cid packet hne
    cases packet with
    | nil => exact absurd rfl hne
    | cons a l =>
      have hflen : 13 ≤ (mkFrame mid cid osz (a :: l)).length := by
        rw [mkFrame_length]
        simp only [List.length_cons]
        omega
      have hs := hstall ci (mkFrame mid cid osz (a :: l)) hflen
      have hnacc : (sendStep mfs mid osz send ci cid (a :: l)).1.accepted = false := by
        rw [Bool.eq_false_iff]
        intro hacc
        rcases (sendStep_accepted_iff mfs mid osz send ci cid (a :: l)).mp hacc with hge | heq
        · omega
        · omega
      have h2 := sendStep_snd_of_not_accepted mfs mid osz send ci cid (a :: l) hnacc
      have h21 : (sendStep mfs mid osz send ci cid (a :: l)).2.1 = cid := by rw [h2]
      have h22 : (sendStep mfs mid osz send ci cid (a :: l)).2.2 = a :: l := by rw [h2]
      rw [sendLoop_succ_cons, h21, h22]
      obtain ⟨ihlen, ihmem, ihfin⟩ := ih (ci + 1) cid (a :: l) hne
      refine ⟨by simpa using ihlen, ?_, ihfin⟩
      intro e he
      rcases List.mem_cons.mp he with he | he
      · subst he
        exact ⟨sendStep_frame mfs mid osz send ci cid (a :: l), hnacc⟩
      · exact ihmem e he

/-- C3. No-progress retry: on a non-negotiation channel, while the transport
keeps reporting a byte count below `s_MinFrameSize` and below the frame size,
every transport call offers the byte-identical frame — same message id, chunk
id 0, original size and payload — the chunk id never advances, and the loop
runs for as long as it is given fuel. -/
theorem no_progress_retry (mfs fuel : Nat) (q : QoSOutState)
    (send : Nat → List Nat → Nat) (packet : List Nat) (hne : packet ≠ [])
    (hstall : ∀ i f, 13 ≤ f.length → send i f < mfs ∧ send i f < f.length) :
    (onPassNetworkPacketChunked mfs q send fuel packet).1.1.length = fuel ∧
    (∀ e ∈ (onPassNetworkPacketChunked mfs q send fuel packet).1.1,
      e.frame = mkFrame q.outgoingId 0 packet.length packet ∧ e.accepted = false) ∧
    (onPassNetworkPacketChunked mfs q send fuel packet).1.2 = (0, packet) :=
  sendLoop_stall mfs q.outgoingId packet.length send hstall fuel 0 0 packet hne

/-- Closed instance of `no_progress_retry`: a transport stuck at 5 bytes
against `s_MinFrameSize = 20` re-offers the same frame every call. -/
theorem no_progress_retry_witness :
    (onPassNetworkPacketChunked 20 ⟨0⟩ (fun _ _ => 5) 4 [1, 2, 3]).1.1.length = 4 ∧
    (∀ e ∈ (onPassNetworkPacketChunked 20 ⟨0⟩ (fun _ _ => 5) 4 [1, 2, 3]).1.1,
      e.frame = mkFrame 0 0 3 [1, 2, 3] ∧ e.accepted = false) ∧
    (onPassNetworkPacketChunked 20 ⟨0⟩ (fun _ _ => 5) 4 [1, 2, 3]).1.2 = (0, [1, 2, 3]) :=
  no_progress_retry 20 4 ⟨0⟩ (fun _ _ => 5) [1, 2, 3] (by decide)
    (fun _ f hf => ⟨show (5 : Nat) < 20 by decide, show (5 : Nat) < f.length by omega⟩)

theorem mkFrame_field_mid (mid cid osz : Nat) (p : List Nat) :
    (mkFrame mid cid osz p).take 4 = encodeU32 mid := rfl

theorem mkFrame_field_cid (mid cid osz : Nat) (p : List Nat) :
    ((mkFrame mid cid osz p).drop 4).take 4 = encodeU32 cid := rfl

theorem mkFrame_field_osz (mid cid osz : Nat) (p : List Nat) :
    ((mkFrame mid cid osz p).drop 8).take 4 = encodeU32 osz := rfl

/-- Every frame of a send-loop trace serialises the loop's message id and
original size, and a chunk id equal to the starting chunk id plus the number
of accepted chunks emitted before it. -/
theorem sendLoop_header (mfs mid osz : Nat) (send : Nat → List Nat → Nat) :
    ∀ fuel ci cid packet k
      (hk : k < (sendLoop mfs mid osz send fuel ci cid packet).1.length),
      (((sendLoop mfs mid osz send fuel ci cid packet).1.get ⟨k, hk⟩).frame.take 4 =
          encodeU32 mid) ∧
      ((((sendLoop mfs mid osz send fuel ci cid packet).1.get ⟨k, hk⟩).frame.drop 8).take 4 =
          encodeU32 osz) ∧
      ((((sendLoop mfs mid osz send fuel ci cid packet).1.get ⟨k, hk⟩).frame.drop 4).take 4 =
          encodeU32
            (cid + countAccepted ((sendLoop mfs mid osz send fuel ci cid packet).1.take k))) := by
  intro fuel
  induction fuel with
  | zero =>
    intro ci cid packet k hk
    exact absurd hk (by rw [sendLoop_zero]; simp)
  | succ n ih =>
    intro ci cid packet k hk
    cases packet with
    | nil => exact absurd hk (by rw [sendLoop_succ_nil]; simp)
    | cons a l =>
      revert hk
      rw [sendLoop_succ_cons]
      intro hk
      cases k with
      | zero =>
        refine ⟨?_, ?_, ?_⟩ <;>
          simp [sendStep_frame, mkFrame_field_mid, mkFrame_field_cid, mkFrame_field_osz,
            countAccepted]
      | succ k =>
        have hk2 : k < (sendLoop mfs mid osz send n (ci + 1)
            (sendStep mfs mid osz send ci cid (a :: l)).2.1
            (sendStep mfs mid osz send ci cid (a :: l)).2.2).1.length := by
          simpa using Nat.lt_of_succ_lt_succ hk
        obtain ⟨ih1, ih2, ih3⟩ := ih (ci + 1)
          (sendStep mfs mid osz send ci cid (a :: l)).2.1
          (sendStep mfs mid osz send ci cid (a :: l)).2.2 k hk2
        have harith :
            cid + countAccepted ((sendStep mfs mid osz send ci cid (a :: l)).1 ::
                ((sendLoop mfs mid osz send n (ci + 1)
                  (sendStep mfs mid osz send ci cid (a :: l)).2.1
                  (sendStep mfs mid osz send ci cid (a :: l)).2.2).1.take k)) =
              (sendStep mfs mid osz send ci cid (a :: l)).2.1 +
                countAccepted ((sendLoop mfs mid osz send n (ci + 1)
                  (sendStep mfs mid osz send ci cid (a :: l)).2.1
                  (sendStep mfs mid osz send ci cid (a :: l)).2.2).1.take k) := by
          rw [countAccepted_cons]
          by_cases hacc : (sendStep mfs mid osz send ci cid (a :: l)).1.accepted = true
          · rw [if_pos hacc, sendStep_snd_fst_of_accepted mfs mid osz send ci cid (a :: l) hacc]
            omega
          · have h2 := sendStep_snd_of_not_accepted mfs mid osz send ci cid (a :: l)
              (Bool.eq_false_iff.mpr hacc)
            have h21 : (sendStep mfs mid osz send ci cid (a :: l)).2.1 = cid := by rw [h2]
            rw [if_neg hacc]
            omega
        refine ⟨?_, ?_, ?_⟩
        · simpa using ih1
        · simpa using ih2
        · rw [List.take_succ_cons, harith]
          simpa using ih3

/-- C4. Header consistency: within one `OnPassNetworkPacket` call on a
non-negotiation channel, every emitted frame serialises the message id
allocated once from QoS before the loop and the full packet length as
`original_size`, while the serialised chunk id of the `k`-th frame equals the
number of chunks accepted before it — starting at 0 and stepping by exactly 1
per accepted chunk. -/
theorem header_consistency (mfs fuel : Nat) (q : QoSOutState)
    (send : Nat → List Nat → Nat) (packet : List Nat) (k : Nat)
    (hk : k < (onPassNetworkPacketChunked mfs q send fuel packet).1.1.length) :
    (((onPassNetworkPacketChunked mfs q send fuel packet).1.1.get ⟨k, hk⟩).frame.take 4 =
        encodeU32 q.outgoingId) ∧
    ((((onPassNetworkPacketChunked mfs q send fuel packet).1.1.get ⟨k, hk⟩).frame.drop 8).take 4 =
        encodeU32 packet.length) ∧
    ((((onPassNetworkPacketChunked mfs q send fuel packet).1.1.get ⟨k, hk⟩).frame.drop 4).take 4 =
        encodeU32
          (countAccepted ((onPassNetworkPacketChunked mfs q send fuel packet).1.1.take k))) := by
  have h := sendLoop_header mfs q.outgoingId packet.length send fuel 0 0 packet k hk
  simpa using h

/-- Closed instance of `header_consistency` at the second frame of a concrete
two-chunk send. -/
theorem header_consistency_witness :
    (((onPassNetworkPacketChunked 20 ⟨3⟩ (fun _ f => min 20 f.length) 9
        [0, 1, 2, 3, 4, 5, 6, 7, 8, 9]).1.1.get ⟨1, by decide⟩).frame.take 4 =
      encodeU32 3) ∧
    ((((onPassNetworkPacketChunked 20 ⟨3⟩ (fun _ f => min 20 f.length) 9
        [0, 1, 2, 3, 4, 5, 6, 7, 8, 9]).1.1.get ⟨1, by decide⟩).frame.drop 8).take 4 =
      encodeU32 10) ∧
    ((((onPassNetworkPacketChunked 20 ⟨3⟩ (fun _ f => min 20 f.length) 9
        [0, 1, 2, 3, 4, 5, 6, 7, 8, 9]).1.1.get ⟨1, by decide⟩).frame.drop 4).take 4 =
      encodeU32
        (countAccepted ((onPassNetworkPacketChunked 20 ⟨3⟩ (fun _ f => min 20 f.length) 9
          [0, 1, 2, 3, 4, 5, 6, 7, 8, 9]).1.1.take 1))) := by
  have h := header_consistency 20 9 ⟨3⟩ (fun _ f => min 20 f.length)
    [0, 1, 2, 3, 4, 5, 6, 7, 8, 9] 1 (by decide)
  simpa using h

/-- C6. Multi-chunk arithmetic: sending the 100-byte packet `i mod 256` with
`s_MinFrameSize = 20` against a transport accepting `min(20, frame.size())`
bytes per call makes exactly 13 transport writes — chunk ids 0..12, the first
12 frames moving 8 payload bytes each and the last 4 — every frame carrying
`original_size = 100`, and drains the packet. -/
theorem multi_chunk_arithmetic :
    ((onPassNetworkPacketChunked 20 ⟨0⟩ (fun _ f => min 20 f.length) 200
        ((List.range 100).map (fun i => i % 256))).1.1.map
          (fun e => (((e.frame.drop 4).take 4, (eventPayload e).length),
            (e.frame.drop 8).take 4)) =
      (List.range 13).map
        (fun c => ((encodeU32 c, if c = 12 then 4 else 8), encodeU32 100))) ∧
    (onPassNetworkPacketChunked 20 ⟨0⟩ (fun _ f => min 20 f.length) 200
        ((List.range 100).map (fun i => i % 256))).1.2.2 = [] := by
  decide

end DeviceBridge

